import Mathlib

/-!
Shallow embedding of the quiz session store and scoring engine of the
SkillScape agent service (`app/tools/score_quiz.py`,
`app/tools/generate_quiz.py`, `app/tools/organize_content.py`, and the
HTTP boundary in `app/main.py`), together with proofs of the claims
the spec makes about them.

Python dicts are embedded as association lists (first match wins, which
coincides with dict semantics because every construction site keeps keys
unique); Python floats arising from quiz-score arithmetic are embedded
as rationals; JSON decoding failures and missing dict keys are embedded
with `Option`; the external generative-AI call is an input parameter
(its response is arbitrary data), as is the freshly generated UUID
session id.
-/

namespace SkillScape

/-- A quiz question as stored in the quiz store after
`generate_quiz` normalizes the external `correct_answer` field into the
internal `correct` field.  `topic` and `correct` are `Option` because the
Python code reads them with `q.get(...)`. -/
structure Question where
  id : String
  topic : Option String
  question : String
  options : List (String × String)
  correct : Option String
deriving Repr, DecidableEq

/-- One entry of `topics_assessed`, as built by `score_quiz`. -/
structure TopicAssessment where
  topic : String
  score : ℚ
  status : String
  questions_correct : ℕ
  questions_total : ℕ
deriving Repr, DecidableEq

/-- The whole-quiz scoring result built by `score_quiz`. -/
structure Assessment where
  session_id : String
  title : String
  topics_assessed : List TopicAssessment
  overall_knowledge : ℚ
  focus_areas : List String
  skip_areas : List String
deriving Repr, DecidableEq

/-- A stored quiz: the generated content plus the scoring state
(`_scored` flag and `_score_result` cache in the Python dict). -/
structure Quiz where
  title : String
  topics : List String
  questions : List Question
  scored : Bool
  scoreResult : Option Assessment
deriving Repr, DecidableEq

/-- The process-wide quiz store.  `app/tools/state.py` holds it as a plain
dict keyed by session id; embedded as an association list in insertion
order. -/
abbrev QuizStore := List (String × Quiz)

/-- Dict lookup: `quiz_store[session_id]` / `session_id in quiz_store`. -/
def storeGet : QuizStore → String → Option Quiz
  | [], _ => none
  | (k, v) :: rest, sid => if k = sid then some v else storeGet rest sid

/-- Dict assignment `quiz_store[session_id] = quiz`: overwrite in place if
the key exists, append otherwise. -/
def storeSet : QuizStore → String → Quiz → QuizStore
  | [], sid, q => [(sid, q)]
  | (k, v) :: rest, sid, q =>
    if k = sid then (sid, q) :: rest else (k, v) :: storeSet rest sid q

/-- Lookup in a string-keyed association list (`dict.get`). -/
def lookupStr {α : Type} : List (String × α) → String → Option α
  | [], _ => none
  | (k, v) :: rest, key => if k = key then some v else lookupStr rest key

/-- Embeds `q.get("topic", "General")` in `score_quiz` (and in the
question view of the `/assess` endpoint). -/
def topicKey (q : Question) : String := q.topic.getD "General"

/-- Embeds `user_answers.get(q["id"]) == q.get("correct")`: the submitted
label for the question, compared to the stored correct label; a missing
answer yields `none`. -/
def answeredCorrectly (answers : List (String × String)) (q : Question) : Bool :=
  lookupStr answers q.id = q.correct

/-- One step of the per-topic tally loop: add one question (counted
correct or not) to the topic bucket `{"correct": c, "total": n}`,
creating the bucket at the end on first sight of the topic (Python dict
insertion order). -/
def bump : List (String × ℕ × ℕ) → String → Bool → List (String × ℕ × ℕ)
  | [], t, ok => [(t, (if ok then 1 else 0), 1)]
  | (k, c, n) :: rest, t, ok =>
    if k = t then (k, c + (if ok then 1 else 0), n + 1) :: rest
    else (k, c, n) :: bump rest t ok

/-- The `topics_scores` dict built by iterating the quiz questions. -/
def topicsScores (questions : List Question) (answers : List (String × String)) :
    List (String × ℕ × ℕ) :=
  questions.foldl (fun acc q => bump acc (topicKey q) (answeredCorrectly answers q)) []

/-- The per-topic record appended to `topics_assessed`: score is
`correct/total` (0 when total is 0) and status is `proficient` iff the
score is at least 0.7. -/
def assessTopic (entry : String × ℕ × ℕ) : TopicAssessment :=
  let score : ℚ := if entry.2.2 > 0 then (entry.2.1 : ℚ) / (entry.2.2 : ℚ) else 0
  { topic := entry.1
    score := score
    status := if score ≥ 7/10 then "proficient" else "needs_review"
    questions_correct := entry.2.1
    questions_total := entry.2.2 }

/-- Errors a scoring call can end in: unknown session (returned as an
`{"error": ...}` JSON object) or a `json.loads` failure on the answers
payload (a raised exception). -/
inductive ScoreError where
  | sessionNotFound (sid : String)
  | malformedAnswers
deriving Repr, DecidableEq

/-- The fresh-scoring computation of `score_quiz`: per-topic tallies,
derived topic assessments, focus/skip sets (both with the inclusive 0.7
boundary) and the overall score. -/
def computeAssessment (session_id : String) (quiz : Quiz)
    (user_answers : List (String × String)) : Assessment :=
  let assessed := (topicsScores quiz.questions user_answers).map assessTopic
  let focus_areas := (assessed.filter (fun t => ¬ t.score ≥ 7/10)).map (·.topic)
  let skip_areas := (assessed.filter (fun t => t.score ≥ 7/10)).map (·.topic)
  let total_correct : ℕ := (assessed.map (·.questions_correct)).sum
  let total_questions : ℕ := (assessed.map (·.questions_total)).sum
  let overall : ℚ :=
    if total_questions > 0 then (total_correct : ℚ) / (total_questions : ℚ) else 0
  { session_id := session_id
    title := quiz.title
    topics_assessed := assessed
    overall_knowledge := overall
    focus_areas := focus_areas
    skip_areas := skip_areas }

/-- Embeds `score_quiz(session_id, answers)`: look the session up, serve the
cached result when `_scored` and `_score_result` are both set, otherwise
tally per-topic correctness, derive the assessment, cache it under the
session and return it.  `answers = none` embeds an answers string that
fails JSON decoding.  Returns the store after the call next to the
result. -/
def score_quiz (store : QuizStore) (session_id : String)
    (answers : Option (List (String × String))) :
    QuizStore × Except ScoreError Assessment :=
  match storeGet store session_id with
  | none => (store, .error (.sessionNotFound session_id))
  | some quiz =>
    match quiz.scored, quiz.scoreResult with
    | true, some cached => (store, .ok cached)
    | _, _ =>
      match answers with
      | none => (store, .error .malformedAnswers)
      | some user_answers =>
        let result := computeAssessment session_id quiz user_answers
        (storeSet store session_id { quiz with scored := true, scoreResult := some result },
         .ok result)

/-- A question as it appears in the external content-understanding
response to `generate_quiz` (the schema requires `id`, `question`,
`options`, `correct_answer`, but not `topic`; the code reads
`correct_answer` with an `in` guard, hence `Option`). -/
structure RawQuestion where
  id : String
  topic : Option String
  question : String
  options : List (String × String)
  correct_answer : Option String
deriving Repr, DecidableEq

/-- The external quiz-generation response body. -/
structure QuizGenResponse where
  title : String
  topics : List String
  questions : List RawQuestion
deriving Repr, DecidableEq

/-- Embeds `q["correct"] = q.pop("correct_answer")`: the stored question
keeps the answer label under `correct`. -/
def normalizeQuestion (q : RawQuestion) : Question :=
  { id := q.id, topic := q.topic, question := q.question
    options := q.options, correct := q.correct_answer }

/-- A question in the sanitized view returned to the client:
`{k: v for k, v in q.items() if k != "correct"}` — every field except the
correct-answer label. -/
structure SanitizedQuestion where
  id : String
  topic : Option String
  question : String
  options : List (String × String)
deriving Repr, DecidableEq

/-- Drop the `correct` field from a stored question. -/
def sanitizeQuestion (q : Question) : SanitizedQuestion :=
  { id := q.id, topic := q.topic, question := q.question, options := q.options }

/-- The value `generate_quiz` returns to the caller. -/
structure QuizView where
  session_id : String
  title : String
  topics : List String
  questions : List SanitizedQuestion
deriving Repr, DecidableEq

/-- Embeds `generate_quiz`: normalize the answer keys of the external response,
store the full quiz under the fresh session id, and return the sanitized
view.  The external response and the generated UUID are parameters. -/
def generate_quiz (store : QuizStore) (resp : QuizGenResponse) (session_id : String) :
    QuizStore × QuizView :=
  let qs := resp.questions.map normalizeQuestion
  let quiz : Quiz :=
    { title := resp.title, topics := resp.topics, questions := qs
      scored := false, scoreResult := none }
  (storeSet store session_id quiz,
   { session_id := session_id
     title := resp.title
     topics := resp.topics
     questions := qs.map sanitizeQuestion })

/-- A question of the `QuizResponse` returned by the `/assess` endpoint
(`app/main.py`): topic defaults to `General` via `q.get("topic", "General")`. -/
structure EndpointQuizQuestion where
  id : String
  topic : String
  question : String
  options : List (String × String)
deriving Repr, DecidableEq

/-- The question list of the `/assess` endpoint response, built from the
sanitized view `generate_quiz` returned. -/
def assessEndpointQuestions (view : QuizView) : List EndpointQuizQuestion :=
  view.questions.map (fun q =>
    { id := q.id, topic := q.topic.getD "General"
      question := q.question, options := q.options })

/-- An exception crossing the `try` block of `submit_assessment_answers`
(`app/main.py`): an `HTTPException` carrying a status, a `ValueError`,
or any other exception. -/
inductive EndpointException where
  | http (status : ℕ)
  | valueError
  | generic
deriving Repr, DecidableEq

/-- What the `try` body of `submit_assessment_answers` raises for each
scorer outcome: an `{"error": ...}` scoring result triggers
`raise HTTPException(status_code=400, ...)` at `app/main.py` line 181; a
decode failure inside the pipeline propagates as an ordinary exception;
success raises nothing and the endpoint builds a 200 response. -/
def raiseForScoreResult : Except ScoreError Assessment → Option EndpointException
  | .error (.sessionNotFound _) => some (.http 400)
  | .error .malformedAnswers => some .generic
  | .ok _ => none

/-- The `except` chain closing that `try` block (`app/main.py` lines
247-251): `except ValueError` re-raises as 404, and the final
`except Exception` re-raises everything else as a generic 500.
`HTTPException` derives from `Exception` and is not a `ValueError`, and
no earlier clause re-raises it untouched, so the 400 raised inside the
block is caught here and surfaces as 500. -/
def catchAll : EndpointException → ℕ
  | .valueError => 404
  | .http _ => 500
  | .generic => 500

/-- HTTP status the `/assess/answers` endpoint actually responds with,
as a function of the scorer outcome: the status raised by the `try`
body filtered through the catch-all `except` chain. -/
def assessAnswersStatus (result : Except ScoreError Assessment) : ℕ :=
  match raiseForScoreResult result with
  | none => 200
  | some exc => catchAll exc

/-- The assessment fields `organize_content` reads
(`json.loads(assessment_json)`); `overall_knowledge` is read with
`assessment.get("overall_knowledge", 0)`, so a missing field is 0. -/
structure OrgAssessment where
  overall_knowledge : ℚ
  focus_areas : List String
  skip_areas : List String
deriving Repr, DecidableEq

/-- The content-node classification proposed by the external call in
`organize_content` (after extracting a nested `content_node` when
present). -/
structure ContentNode where
  title : String
  medium : String
  subjects : List String
  tags : List String
  progressPercent : ℤ
  status : String
deriving Repr, DecidableEq

/-- Python `int()` applied to a real value: truncation toward zero. -/
def pyInt (q : ℚ) : ℤ := if 0 ≤ q then ⌊q⌋ else ⌈q⌉

/-- Embeds `progress = int(assessment.get("overall_knowledge", 0) * 100)`. -/
def progressOf (assessment : Option OrgAssessment) : ℤ :=
  pyInt ((match assessment with
          | some a => a.overall_knowledge
          | none => 0) * 100)

/-- The status rule of `organize_content`:
`"completed" if progress >= 100 else "in_progress" if progress > 0 else "not_started"`. -/
def statusOf (progress : ℤ) : String :=
  if progress ≥ 100 then "completed"
  else if progress > 0 then "in_progress"
  else "not_started"

/-- Embeds `organize_content`, restricted to its deterministic core: the
proposed classification from the external call is a parameter, and the
function unconditionally overwrites its `progressPercent` and `status`
from the supplied assessment (or from progress 0 when no assessment was
supplied) before returning it. -/
def organize_content (assessment : Option OrgAssessment) (proposed : ContentNode) :
    ContentNode :=
  let progress := progressOf assessment
  { proposed with progressPercent := progress, status := statusOf progress }

/-- Append a topic to the list of seen topics unless already present:
the effect one question has on the key order of the `topics_scores`
dict. -/
def insertSeen (seen : List String) (t : String) : List String :=
  if t ∈ seen then seen else seen ++ [t]

/-- The distinct elements of a list in first-seen order: the key order a
Python dict ends up with after inserting the list elements one by
one. -/
def firstSeen (ts : List String) : List String := ts.foldl insertSeen []

/-- The store-consistency invariant of the error-handling design in the spec:
no stored quiz has the `scored` flag set without a cached result. -/
def StoreConsistent (store : QuizStore) : Prop :=
  ∀ p ∈ store, p.2.scored = true → p.2.scoreResult ≠ none

/-- The store left behind by a sequence of scoring attempts. -/
def runAttempts (store : QuizStore)
    (attempts : List (String × Option (List (String × String)))) : QuizStore :=
  attempts.foldl (fun s att => (score_quiz s att.1 att.2).1) store

/-! ### Association-list store lemmas -/

theorem storeGet_storeSet_self (store : QuizStore) (sid : String) (q : Quiz) :
    storeGet (storeSet store sid q) sid = some q := by
  induction store with
  | nil => simp [storeSet, storeGet]
  | cons p rest ih =>
    obtain ⟨k, v⟩ := p
    by_cases hk : k = sid
    · simp [storeSet, storeGet, hk]
    · simp [storeSet, storeGet, hk, ih]

theorem mem_storeSet (store : QuizStore) (sid : String) (q : Quiz) :
    ∀ p ∈ storeSet store sid q, p = (sid, q) ∨ p ∈ store := by
  induction store with
  | nil => intro p hp; simpa [storeSet] using hp
  | cons hd rest ih =>
    intro p hp
    obtain ⟨k, v⟩ := hd
    by_cases hk : k = sid
    · simp only [storeSet, if_pos hk, List.mem_cons] at hp
      rcases hp with hp | hp
      · exact Or.inl hp
      · exact Or.inr (List.mem_cons_of_mem _ hp)
    · simp only [storeSet, if_neg hk, List.mem_cons] at hp
      rcases hp with hp | hp
      · exact Or.inr (by simp [hp])
      · rcases ih p hp with h | h
        · exact Or.inl h
        · exact Or.inr (List.mem_cons_of_mem _ h)

/-! ### First-seen order lemmas -/

theorem mem_insertSeen (seen : List String) (t x : String) :
    x ∈ insertSeen seen t ↔ x ∈ seen ∨ x = t := by
  by_cases h : t ∈ seen
  · simp only [insertSeen, if_pos h]
    constructor
    · exact Or.inl
    · rintro (hx | rfl)
      · exact hx
      · exact h
  · simp [insertSeen, if_neg h]

theorem nodup_insertSeen (seen : List String) (t : String) (h : seen.Nodup) :
    (insertSeen seen t).Nodup := by
  by_cases ht : t ∈ seen
  · simpa [insertSeen, if_pos ht] using h
  · simp only [insertSeen, if_neg ht]
    simp [List.nodup_append, h, ht]

theorem nodup_foldl_insertSeen (ts : List String) :
    ∀ seen : List String, seen.Nodup → (ts.foldl insertSeen seen).Nodup := by
  induction ts with
  | nil => intro seen h; simpa using h
  | cons t rest ih => intro seen h; exact ih _ (nodup_insertSeen seen t h)

theorem mem_foldl_insertSeen (ts : List String) :
    ∀ (seen : List String) (x : String),
      x ∈ ts.foldl insertSeen seen ↔ x ∈ seen ∨ x ∈ ts := by
  induction ts with
  | nil => intro seen x; simp
  | cons t rest ih =>
    intro seen x
    simp only [List.foldl_cons, ih, mem_insertSeen, List.mem_cons]
    tauto

theorem firstSeen_nodup (ts : List String) : (firstSeen ts).Nodup :=
  nodup_foldl_insertSeen ts [] List.nodup_nil

theorem mem_firstSeen (ts : List String) (x : String) :
    x ∈ firstSeen ts ↔ x ∈ ts := by
  simp [firstSeen, mem_foldl_insertSeen]

/-! ### Tally lemmas -/

theorem bump_keys (acc : List (String × ℕ × ℕ)) (t : String) (ok : Bool) :
    (bump acc t ok).map Prod.fst = insertSeen (acc.map Prod.fst) t := by
  induction acc with
  | nil => simp [bump, insertSeen]
  | cons hd rest ih =>
    obtain ⟨k, c, n⟩ := hd
    by_cases hk : k = t
    · subst hk
      simp [bump, insertSeen]
    · simp only [bump, if_neg hk, List.map_cons, ih, insertSeen]
      by_cases ht : t ∈ rest.map Prod.fst
      · simp [ht, hk, Ne.symm hk]
      · simp [ht, hk, Ne.symm hk]

theorem bump_totals (acc : List (String × ℕ × ℕ)) (t : String) (ok : Bool) :
    ((bump acc t ok).map (fun e => e.2.2)).sum = ((acc.map (fun e => e.2.2)).sum) + 1 := by
  induction acc with
  | nil => simp [bump]
  | cons hd rest ih =>
    obtain ⟨k, c, n⟩ := hd
    by_cases hk : k = t
    · simp [bump, hk]
      ring
    · simp [bump, hk, ih]
      ring

theorem bump_corrects (acc : List (String × ℕ × ℕ)) (t : String) (ok : Bool) :
    ((bump acc t ok).map (fun e => e.2.1)).sum =
      ((acc.map (fun e => e.2.1)).sum) + (if ok then 1 else 0) := by
  induction acc with
  | nil => simp [bump]
  | cons hd rest ih =>
    obtain ⟨k, c, n⟩ := hd
    by_cases hk : k = t
    · simp [bump, hk]
      ring
    · simp [bump, hk, ih]
      ring

theorem topicsScores_go_keys (answers : List (String × String)) (questions : List Question) :
    ∀ acc : List (String × ℕ × ℕ),
      ((questions.foldl (fun acc q => bump acc (topicKey q) (answeredCorrectly answers q)) acc).map
          Prod.fst)
        = (questions.map topicKey).foldl insertSeen (acc.map Prod.fst) := by
  induction questions with
  | nil => intro acc; simp
  | cons q rest ih =>
    intro acc
    simp only [List.foldl_cons, List.map_cons, ih, bump_keys]

theorem topicsScores_keys (questions : List Question) (answers : List (String × String)) :
    (topicsScores questions answers).map Prod.fst = firstSeen (questions.map topicKey) := by
  simpa [topicsScores, firstSeen] using topicsScores_go_keys answers questions []

theorem topicsScores_keys_nodup (questions : List Question) (answers : List (String × String)) :
    ((topicsScores questions answers).map Prod.fst).Nodup := by
  rw [topicsScores_keys]
  exact firstSeen_nodup _

theorem mem_topicsScores_keys (questions : List Question) (answers : List (String × String))
    (t : String) :
    t ∈ (topicsScores questions answers).map Prod.fst ↔ t ∈ questions.map topicKey := by
  rw [topicsScores_keys]
  exact mem_firstSeen _ _

theorem topicsScores_go_totals (answers : List (String × String)) (questions : List Question) :
    ∀ acc : List (String × ℕ × ℕ),
      (((questions.foldl (fun acc q => bump acc (topicKey q) (answeredCorrectly answers q)) acc).map
            (fun e => e.2.2)).sum)
        = ((acc.map (fun e => e.2.2)).sum) + questions.length := by
  induction questions with
  | nil => intro acc; simp
  | cons q rest ih =>
    intro acc
    simp only [List.foldl_cons, List.length_cons, ih, bump_totals]
    ring

theorem topicsScores_totals (questions : List Question) (answers : List (String × String)) :
    ((topicsScores questions answers).map (fun e => e.2.2)).sum = questions.length := by
  simpa [topicsScores] using topicsScores_go_totals answers questions []

theorem topicsScores_go_corrects (answers : List (String × String)) (questions : List Question) :
    ∀ acc : List (String × ℕ × ℕ),
      (((questions.foldl (fun acc q => bump acc (topicKey q) (answeredCorrectly answers q)) acc).map
            (fun e => e.2.1)).sum)
        = ((acc.map (fun e => e.2.1)).sum) + questions.countP (answeredCorrectly answers) := by
  induction questions with
  | nil => intro acc; simp
  | cons q rest ih =>
    intro acc
    simp only [List.foldl_cons, ih, bump_corrects, List.countP_cons]
    by_cases hq : answeredCorrectly answers q
    · simp [hq]
      ring
    · simp [hq]

theorem topicsScores_corrects (questions : List Question) (answers : List (String × String)) :
    ((topicsScores questions answers).map (fun e => e.2.1)).sum =
      questions.countP (answeredCorrectly answers) := by
  simpa [topicsScores] using topicsScores_go_corrects answers questions []

/-! ### Branch lemmas for the scorer -/

theorem score_quiz_not_found (store : QuizStore) (sid : String)
    (answers : Option (List (String × String))) (h : storeGet store sid = none) :
    score_quiz store sid answers = (store, .error (.sessionNotFound sid)) := by
  simp [score_quiz, h]

theorem score_quiz_cached (store : QuizStore) (sid : String)
    (answers : Option (List (String × String))) (quiz : Quiz) (cached : Assessment)
    (h : storeGet store sid = some quiz) (hs : quiz.scored = true)
    (hr : quiz.scoreResult = some cached) :
    score_quiz store sid answers = (store, .ok cached) := by
  simp [score_quiz, h, hs, hr]

theorem score_quiz_fresh (store : QuizStore) (sid : String)
    (user_answers : List (String × String)) (quiz : Quiz)
    (h : storeGet store sid = some quiz)
    (hf : quiz.scored = false ∨ quiz.scoreResult = none) :
    score_quiz store sid (some user_answers) =
      (storeSet store sid
        { quiz with scored := true
                    scoreResult := some (computeAssessment sid quiz user_answers) },
       .ok (computeAssessment sid quiz user_answers)) := by
  rcases hf with hf | hf
  · simp [score_quiz, h, hf]
  · cases hs : quiz.scored <;> simp [score_quiz, h, hf, hs]

theorem score_quiz_malformed (store : QuizStore) (sid : String) (quiz : Quiz)
    (h : storeGet store sid = some quiz)
    (hf : quiz.scored = false ∨ quiz.scoreResult = none) :
    score_quiz store sid none = (store, .error .malformedAnswers) := by
  rcases hf with hf | hf
  · simp [score_quiz, h, hf]
  · cases hs : quiz.scored <;> simp [score_quiz, h, hf, hs]

/-! ### Assessment-shape lemmas -/

theorem assessTopic_topic (e : String × ℕ × ℕ) : (assessTopic e).topic = e.1 := rfl

theorem assessTopic_total (e : String × ℕ × ℕ) :
    (assessTopic e).questions_total = e.2.2 := rfl

theorem assessTopic_correct (e : String × ℕ × ℕ) :
    (assessTopic e).questions_correct = e.2.1 := rfl

theorem assessTopic_status (e : String × ℕ × ℕ) :
    (assessTopic e).status =
      if (assessTopic e).score ≥ 7/10 then "proficient" else "needs_review" := rfl

theorem computeAssessment_topics (sid : String) (quiz : Quiz)
    (user_answers : List (String × String)) :
    (computeAssessment sid quiz user_answers).topics_assessed =
      (topicsScores quiz.questions user_answers).map assessTopic := rfl

theorem computeAssessment_focus (sid : String) (quiz : Quiz)
    (user_answers : List (String × String)) :
    (computeAssessment sid quiz user_answers).focus_areas =
      (((topicsScores quiz.questions user_answers).map assessTopic).filter
          (fun t => ¬ t.score ≥ 7/10)).map (·.topic) := rfl

theorem computeAssessment_skip (sid : String) (quiz : Quiz)
    (user_answers : List (String × String)) :
    (computeAssessment sid quiz user_answers).skip_areas =
      (((topicsScores quiz.questions user_answers).map assessTopic).filter
          (fun t => t.score ≥ 7/10)).map (·.topic) := rfl

theorem assessed_topics_eq_keys (questions : List Question)
    (answers : List (String × String)) :
    ((topicsScores questions answers).map assessTopic).map (·.topic) =
      (topicsScores questions answers).map Prod.fst := by
  rw [List.map_map]
  rfl

theorem assessed_topics_nodup (questions : List Question)
    (answers : List (String × String)) :
    (((topicsScores questions answers).map assessTopic).map (·.topic)).Nodup := by
  rw [assessed_topics_eq_keys]
  exact topicsScores_keys_nodup questions answers

/-- Nodup of a mapped list forces the map to be injective on members. -/
theorem nodup_map_inj {α β : Type} {f : α → β} {l : List α}
    (h : (l.map f).Nodup) {a b : α} (ha : a ∈ l) (hb : b ∈ l) (hf : f a = f b) :
    a = b := by
  induction l with
  | nil => cases ha
  | cons x rest ih =>
    simp only [List.map_cons, List.nodup_cons] at h
    rcases List.mem_cons.mp ha with rfl | ha2
    · rcases List.mem_cons.mp hb with rfl | hb2
      · rfl
      · exact absurd (hf ▸ List.mem_map_of_mem f hb2) h.1
    · rcases List.mem_cons.mp hb with rfl | hb2
      · exact absurd (hf ▸ List.mem_map_of_mem f ha2) h.1
      · exact ih h.2 ha2 hb2

/-- After any scoring call that returns a result, the stored quiz for
the session carries the scored flag and caches exactly the returned
assessment. -/
theorem score_quiz_ok_state (store s₁ : QuizStore) (sid : String)
    (ans : Option (List (String × String))) (a : Assessment)
    (h : score_quiz store sid ans = (s₁, .ok a)) :
    ∃ q₁ : Quiz, storeGet s₁ sid = some q₁ ∧ q₁.scored = true ∧ q₁.scoreResult = some a := by
  cases hget : storeGet store sid with
  | none =>
    rw [score_quiz_not_found store sid ans hget] at h
    simp at h
  | some quiz =>
    cases hs : quiz.scored with
    | true =>
      cases hr : quiz.scoreResult with
      | some c =>
        rw [score_quiz_cached store sid ans quiz c hget hs hr] at h
        simp only [Prod.mk.injEq, Except.ok.injEq] at h
        obtain ⟨rfl, rfl⟩ := h
        exact ⟨quiz, hget, hs, hr⟩
      | none =>
        cases ans with
        | none =>
          rw [score_quiz_malformed store sid quiz hget (Or.inr hr)] at h
          simp at h
        | some ua =>
          rw [score_quiz_fresh store sid ua quiz hget (Or.inr hr)] at h
          simp only [Prod.mk.injEq, Except.ok.injEq] at h
          obtain ⟨rfl, rfl⟩ := h
          exact ⟨_, storeGet_storeSet_self store sid _, rfl, rfl⟩
    | false =>
      cases ans with
      | none =>
        rw [score_quiz_malformed store sid quiz hget (Or.inl hs)] at h
        simp at h
      | some ua =>
        rw [score_quiz_fresh store sid ua quiz hget (Or.inl hs)] at h
        simp only [Prod.mk.injEq, Except.ok.injEq] at h
        obtain ⟨rfl, rfl⟩ := h
        exact ⟨_, storeGet_storeSet_self store sid _, rfl, rfl⟩

/-- A scoring call that ends in an error leaves the store untouched. -/
theorem score_quiz_error_state (store : QuizStore) (sid : String)
    (ans : Option (List (String × String))) (e : ScoreError)
    (h : (score_quiz store sid ans).2 = .error e) :
    (score_quiz store sid ans).1 = store := by
  cases hget : storeGet store sid with
  | none => rw [score_quiz_not_found store sid ans hget]
  | some quiz =>
    by_cases hcached : quiz.scored = true ∧ ∃ c, quiz.scoreResult = some c
    · obtain ⟨hs, c, hr⟩ := hcached
      rw [score_quiz_cached store sid ans quiz c hget hs hr]
    · have hf : quiz.scored = false ∨ quiz.scoreResult = none := by
        rcases Bool.eq_false_or_eq_true quiz.scored with hs | hs
        · cases hr : quiz.scoreResult with
          | none => exact Or.inr rfl
          | some c => exact absurd ⟨hs, c, hr⟩ hcached
        · exact Or.inl hs
      cases ans with
      | none => rw [score_quiz_malformed store sid quiz hget hf]
      | some ua =>
        rw [score_quiz_fresh store sid ua quiz hget hf] at h
        simp at h

/-- One scoring call preserves the store-consistency invariant. -/
theorem score_quiz_preserves_consistent (store : QuizStore) (sid : String)
    (ans : Option (List (String × String))) (h : StoreConsistent store) :
    StoreConsistent (score_quiz store sid ans).1 := by
  cases hget : storeGet store sid with
  | none =>
    rw [score_quiz_not_found store sid ans hget]
    exact h
  | some quiz =>
    by_cases hcached : quiz.scored = true ∧ ∃ c, quiz.scoreResult = some c
    · obtain ⟨hs, c, hr⟩ := hcached
      rw [score_quiz_cached store sid ans quiz c hget hs hr]
      exact h
    · have hf : quiz.scored = false ∨ quiz.scoreResult = none := by
        rcases Bool.eq_false_or_eq_true quiz.scored with hs | hs
        · cases hr : quiz.scoreResult with
          | none => exact Or.inr rfl
          | some c => exact absurd ⟨hs, c, hr⟩ hcached
        · exact Or.inl hs
      cases ans with
      | none =>
        rw [score_quiz_malformed store sid quiz hget hf]
        exact h
      | some ua =>
        rw [score_quiz_fresh store sid ua quiz hget hf]
        intro p hp
        rcases mem_storeSet store sid _ p hp with rfl | hp2
        · intro _
          simp
        · exact h p hp2

theorem runAttempts_consistent
    (attempts : List (String × Option (List (String × String)))) :
    ∀ store : QuizStore, StoreConsistent store →
      StoreConsistent (runAttempts store attempts) := by
  induction attempts with
  | nil => intro store h; simpa [runAttempts] using h
  | cons att rest ih =>
    intro store h
    have h1 := score_quiz_preserves_consistent store att.1 att.2 h
    simpa [runAttempts] using ih _ h1

/-! ### Overall-score lemmas -/

theorem assessed_totals_eq (questions : List Question) (ans : List (String × String)) :
    ((topicsScores questions ans).map assessTopic).map (·.questions_total) =
      (topicsScores questions ans).map (fun e => e.2.2) := by
  rw [List.map_map]
  rfl

theorem assessed_corrects_eq (questions : List Question) (ans : List (String × String)) :
    ((topicsScores questions ans).map assessTopic).map (·.questions_correct) =
      (topicsScores questions ans).map (fun e => e.2.1) := by
  rw [List.map_map]
  rfl

theorem computeAssessment_overall (sid : String) (quiz : Quiz)
    (ans : List (String × String)) :
    (computeAssessment sid quiz ans).overall_knowledge =
      if quiz.questions.length > 0
      then ((quiz.questions.countP (answeredCorrectly ans) : ℚ) /
              (quiz.questions.length : ℚ))
      else 0 := by
  simp only [computeAssessment]
  rw [assessed_totals_eq, assessed_corrects_eq, topicsScores_totals, topicsScores_corrects]

/-! ### Claim theorems -/

/-- C1: once a stored quiz carries the scored flag together with a cached
score result, every scoring call for that session — with any answers
argument, including answers different from the first submission — returns
exactly the cached Assessment and leaves the store untouched; and after
any scoring call that returned a result, every later call with any
answers returns that same result and changes nothing. -/
theorem scoring_idempotent_by_identity :
    (∀ (store : QuizStore) (sid : String) (quiz : Quiz) (cached : Assessment)
        (answers : Option (List (String × String))),
        storeGet store sid = some quiz →
        quiz.scored = true →
        quiz.scoreResult = some cached →
        score_quiz store sid answers = (store, .ok cached)) ∧
    (∀ (store s₁ : QuizStore) (sid : String)
        (ans₁ ans₂ : Option (List (String × String))) (a₁ : Assessment),
        score_quiz store sid ans₁ = (s₁, .ok a₁) →
        score_quiz s₁ sid ans₂ = (s₁, .ok a₁)) := by
  constructor
  · intro store sid quiz cached answers hget hs hr
    exact score_quiz_cached store sid answers quiz cached hget hs hr
  · intro store s₁ sid ans₁ ans₂ a₁ h₁
    obtain ⟨q₁, hget₁, hs₁, hr₁⟩ := score_quiz_ok_state store s₁ sid ans₁ a₁ h₁
    exact score_quiz_cached s₁ sid ans₂ q₁ a₁ hget₁ hs₁ hr₁

/-- C2 counterexample: with `overall_knowledge = 2/3` the code stores
`progressPercent = 66` (truncation by `int(...)`), not
`round(overall_knowledge * 100) = 67` as claimed. -/
theorem organize_progress_not_rounded :
    ¬ ((organize_content
          (some { overall_knowledge := 2/3, focus_areas := ["B"], skip_areas := ["A"] })
          { title := "T", medium := "article", subjects := ["S"], tags := ["t"],
            progressPercent := 0, status := "not_started" }).progressPercent =
        round (((2 : ℚ)/3) * 100)) := by
  have h1 : (organize_content
      (some { overall_knowledge := 2/3, focus_areas := ["B"], skip_areas := ["A"] })
      { title := "T", medium := "article", subjects := ["S"], tags := ["t"],
        progressPercent := 0, status := "not_started" }).progressPercent = 66 := by
    norm_num [organize_content, progressOf, pyInt]
  have h2 : round (((2 : ℚ)/3) * 100) = (67 : ℤ) := by
    norm_num [round_eq]
  rw [h1, h2]
  decide

/-- C2 (amended): with a non-empty assessment, `organize_content` sets
`progressPercent` to the truncation toward zero (Python `int`) of
`overall_knowledge * 100` — not to its rounding — sets `status` to
`completed` when that progress is at least 100, `in_progress` when it is
strictly between 0 and 100, and `not_started` otherwise, and leaves the
remaining proposed classification fields untouched, overriding whatever
progress or status the external call proposed. -/
theorem organize_overrides_progress_and_status :
    ∀ (a : OrgAssessment) (proposed : ContentNode),
      (organize_content (some a) proposed).progressPercent =
        pyInt (a.overall_knowledge * 100) ∧
      (organize_content (some a) proposed).status =
        (if pyInt (a.overall_knowledge * 100) ≥ 100 then "completed"
         else if 0 < pyInt (a.overall_knowledge * 100) then "in_progress"
         else "not_started") ∧
      (organize_content (some a) proposed).title = proposed.title ∧
      (organize_content (some a) proposed).medium = proposed.medium ∧
      (organize_content (some a) proposed).subjects = proposed.subjects ∧
      (organize_content (some a) proposed).tags = proposed.tags := by
  intro a proposed
  refine ⟨rfl, ?_, rfl, rfl, rfl, rfl⟩
  rfl

/-- C5 (code bug): at the failing input — session id `missing` scored
against the empty store — the scorer returns the session-not-found error
and leaves the store unchanged, and the endpoint raises the intended
`HTTPException(400)`, but the catch-all `except Exception` clause
swallows it and the client receives the generic 500 server fault, not
the client error the claim and the spec require. -/
theorem unknown_session_surfaces_as_server_fault :
    score_quiz [] "missing" (some []) = ([], .error (.sessionNotFound "missing")) ∧
    raiseForScoreResult (.error (.sessionNotFound "missing")) = some (.http 400) ∧
    assessAnswersStatus (.error (.sessionNotFound "missing")) = 500 ∧
    assessAnswersStatus (.error (.sessionNotFound "missing")) ≠ 400 :=
  ⟨rfl, rfl, rfl, by decide⟩

/-- C9: a scoring call that fails leaves the whole quiz store unchanged,
and any sequence of scoring attempts preserves the invariant that no
stored quiz has the scored flag set without a cached result. -/
theorem failed_scoring_keeps_store_consistent :
    (∀ (store : QuizStore) (sid : String)
        (answers : Option (List (String × String))) (e : ScoreError),
        (score_quiz store sid answers).2 = .error e →
        (score_quiz store sid answers).1 = store) ∧
    (∀ (store : QuizStore)
        (attempts : List (String × Option (List (String × String)))),
        StoreConsistent store → StoreConsistent (runAttempts store attempts)) := by
  constructor
  · intro store sid answers e h
    exact score_quiz_error_state store sid answers e h
  · intro store attempts h
    exact runAttempts_consistent attempts store h

/-- C3: in the assessment a fresh scoring call produces, every topic
entry has status `proficient` and appears in `skip_areas` (and not in
`focus_areas`) exactly when its score is at least 0.7 — so a topic
scoring exactly 0.7 is skipped — and otherwise has status `needs_review`
and appears in `focus_areas` (and not in `skip_areas`). -/
theorem proficiency_boundary_inclusive :
    ∀ (store : QuizStore) (sid : String) (quiz : Quiz)
      (ans : List (String × String)) (s₁ : QuizStore) (a : Assessment)
      (t : TopicAssessment),
      storeGet store sid = some quiz →
      quiz.scored = false ∨ quiz.scoreResult = none →
      score_quiz store sid (some ans) = (s₁, .ok a) →
      t ∈ a.topics_assessed →
      ((t.score ≥ 7/10 →
          t.status = "proficient" ∧ t.topic ∈ a.skip_areas ∧ t.topic ∉ a.focus_areas) ∧
       (¬ t.score ≥ 7/10 →
          t.status = "needs_review" ∧ t.topic ∈ a.focus_areas ∧ t.topic ∉ a.skip_areas)) := by
  intro store sid quiz ans s₁ a t hget hf hok ht
  rw [score_quiz_fresh store sid ans quiz hget hf] at hok
  simp only [Prod.mk.injEq, Except.ok.injEq] at hok
  obtain ⟨rfl, rfl⟩ := hok
  rw [computeAssessment_topics] at ht
  constructor
  · intro hsc
    refine ⟨?_, ?_, ?_⟩
    · obtain ⟨e, he, rfl⟩ := List.mem_map.mp ht
      rw [assessTopic_status, if_pos hsc]
    · rw [computeAssessment_skip]
      exact List.mem_map_of_mem _ (List.mem_filter.mpr ⟨ht, by simpa using hsc⟩)
    · rw [computeAssessment_focus]
      intro hmem
      obtain ⟨u, hu, hut⟩ := List.mem_map.mp hmem
      have hu2 := List.mem_filter.mp hu
      have hut2 : u = t :=
        nodup_map_inj (assessed_topics_nodup quiz.questions ans) hu2.1 ht hut
      rw [hut2] at hu2
      have hnot : ¬ t.score ≥ 7/10 := by simpa using hu2.2
      exact hnot hsc
  · intro hsc
    refine ⟨?_, ?_, ?_⟩
    · obtain ⟨e, he, rfl⟩ := List.mem_map.mp ht
      rw [assessTopic_status, if_neg hsc]
    · rw [computeAssessment_focus]
      exact List.mem_map_of_mem _ (List.mem_filter.mpr ⟨ht, by simpa using hsc⟩)
    · rw [computeAssessment_skip]
      intro hmem
      obtain ⟨u, hu, hut⟩ := List.mem_map.mp hmem
      have hu2 := List.mem_filter.mp hu
      have hut2 : u = t :=
        nodup_map_inj (assessed_topics_nodup quiz.questions ans) hu2.1 ht hut
      rw [hut2] at hu2
      exact hsc (by simpa using hu2.2)

/-- C4: the assessment a fresh scoring call produces has one
`topics_assessed` entry per distinct topic of the quiz, listed in the
first-seen order of topics while iterating the questions, and the
`questions_total` fields over all entries sum to the number of
questions. -/
theorem assessment_covers_all_questions_and_topics :
    ∀ (store : QuizStore) (sid : String) (quiz : Quiz)
      (ans : List (String × String)) (s₁ : QuizStore) (a : Assessment),
      storeGet store sid = some quiz →
      quiz.scored = false ∨ quiz.scoreResult = none →
      score_quiz store sid (some ans) = (s₁, .ok a) →
      (a.topics_assessed.map (·.topic) = firstSeen (quiz.questions.map topicKey) ∧
       (a.topics_assessed.map (·.questions_total)).sum = quiz.questions.length ∧
       (a.topics_assessed.map (·.topic)).Nodup ∧
       (∀ tp : String,
          tp ∈ a.topics_assessed.map (·.topic) ↔ tp ∈ quiz.questions.map topicKey)) := by
  intro store sid quiz ans s₁ a hget hf hok
  rw [score_quiz_fresh store sid ans quiz hget hf] at hok
  simp only [Prod.mk.injEq, Except.ok.injEq] at hok
  obtain ⟨rfl, rfl⟩ := hok
  rw [computeAssessment_topics]
  refine ⟨?_, ?_, ?_, ?_⟩
  · rw [assessed_topics_eq_keys, topicsScores_keys]
  · rw [assessed_totals_eq, topicsScores_totals]
  · exact assessed_topics_nodup quiz.questions ans
  · intro tp
    rw [assessed_topics_eq_keys]
    exact mem_topicsScores_keys quiz.questions ans tp

/-- C6: a question whose id has no entry in the submitted answers — or
whose submitted label differs from its correct label — contributes zero
correct and one total to the tally of its topic, and a scoring call on a
stored session with a decodable answers mapping always returns a result,
never an error, whatever question ids the mapping contains or omits. -/
theorem missing_answer_incorrect_never_error :
    (∀ (ans : List (String × String)) (q : Question) (c : String),
        q.correct = some c →
        lookupStr ans q.id ≠ some c →
        answeredCorrectly ans q = false ∧
        topicsScores [q] ans = [(topicKey q, 0, 1)]) ∧
    (∀ (store : QuizStore) (sid : String) (quiz : Quiz)
        (ans : List (String × String)),
        storeGet store sid = some quiz →
        ∃ a : Assessment, (score_quiz store sid (some ans)).2 = .ok a) := by
  constructor
  · intro ans q c hc hne
    have hfalse : answeredCorrectly ans q = false := by
      rw [answeredCorrectly, hc]
      exact decide_eq_false hne
    refine ⟨hfalse, ?_⟩
    simp [topicsScores, bump, hfalse]
  · intro store sid quiz ans hget
    by_cases hcached : quiz.scored = true ∧ ∃ c, quiz.scoreResult = some c
    · obtain ⟨hs, c, hr⟩ := hcached
      exact ⟨c, by rw [score_quiz_cached store sid (some ans) quiz c hget hs hr]⟩
    · have hf : quiz.scored = false ∨ quiz.scoreResult = none := by
        rcases Bool.eq_false_or_eq_true quiz.scored with hs | hs
        · cases hr : quiz.scoreResult with
          | none => exact Or.inr rfl
          | some c => exact absurd ⟨hs, c, hr⟩ hcached
        · exact Or.inl hs
      exact ⟨computeAssessment sid quiz ans,
        by rw [score_quiz_fresh store sid ans quiz hget hf]⟩

/-- C7: the overall knowledge of a fresh scoring result equals the
number of correctly answered questions divided by the total number of
questions, and is 0 — not a division error — when the quiz has no
questions. -/
theorem overall_knowledge_ratio :
    ∀ (store : QuizStore) (sid : String) (quiz : Quiz)
      (ans : List (String × String)) (s₁ : QuizStore) (a : Assessment),
      storeGet store sid = some quiz →
      quiz.scored = false ∨ quiz.scoreResult = none →
      score_quiz store sid (some ans) = (s₁, .ok a) →
      (a.overall_knowledge =
        (quiz.questions.countP (answeredCorrectly ans) : ℚ) /
          (quiz.questions.length : ℚ) ∧
       (quiz.questions = [] → a.overall_knowledge = 0)) := by
  intro store sid quiz ans s₁ a hget hf hok
  rw [score_quiz_fresh store sid ans quiz hget hf] at hok
  simp only [Prod.mk.injEq, Except.ok.injEq] at hok
  obtain ⟨rfl, rfl⟩ := hok
  rw [computeAssessment_overall]
  constructor
  · by_cases hlen : quiz.questions.length > 0
    · rw [if_pos hlen]
    · rw [if_neg hlen]
      have h0 : quiz.questions.length = 0 := Nat.eq_zero_of_not_pos hlen
      have hc : quiz.questions.countP (answeredCorrectly ans) = 0 := by
        have := List.countP_le_length (p := answeredCorrectly ans) (l := quiz.questions)
        omega
      rw [h0, hc]
      norm_num
  · intro hempty
    rw [hempty]
    simp

/-- C8: a successful quiz generation stores the full quiz under the new
session id, keeping the correct label of every question normalized from the
external `correct_answer` field into the internal `correct` field, while
the value returned to the client carries the session id, title, topics
and the questions stripped of the `correct` field. -/
theorem generation_stores_answers_returns_sanitized :
    ∀ (store : QuizStore) (resp : QuizGenResponse) (sid : String),
      storeGet (generate_quiz store resp sid).1 sid =
        some { title := resp.title, topics := resp.topics,
               questions := resp.questions.map normalizeQuestion,
               scored := false, scoreResult := none } ∧
      (resp.questions.map normalizeQuestion).map (·.correct) =
        resp.questions.map (·.correct_answer) ∧
      (generate_quiz store resp sid).2 =
        { session_id := sid, title := resp.title, topics := resp.topics,
          questions := (resp.questions.map normalizeQuestion).map sanitizeQuestion } := by
  intro store resp sid
  refine ⟨storeGet_storeSet_self store sid _, ?_, rfl⟩
  rw [List.map_map]
  rfl

/-- C10: a question lacking a topic field is aggregated by the scorer
under the topic label `General`, and the `/assess` endpoint reports
`General` as the topic of that question in the sanitized quiz view. -/
theorem missing_topic_defaults_to_general :
    (∀ (store : QuizStore) (sid : String) (quiz : Quiz) (q : Question)
        (ans : List (String × String)) (s₁ : QuizStore) (a : Assessment),
        storeGet store sid = some quiz →
        quiz.scored = false ∨ quiz.scoreResult = none →
        score_quiz store sid (some ans) = (s₁, .ok a) →
        q ∈ quiz.questions →
        q.topic = none →
        "General" ∈ a.topics_assessed.map (·.topic)) ∧
    (∀ (view : QuizView) (sq : SanitizedQuestion),
        sq ∈ view.questions →
        sq.topic = none →
        ({ id := sq.id, topic := "General", question := sq.question,
           options := sq.options } : EndpointQuizQuestion) ∈
          assessEndpointQuestions view) := by
  constructor
  · intro store sid quiz q ans s₁ a hget hf hok hq htopic
    rw [score_quiz_fresh store sid ans quiz hget hf] at hok
    simp only [Prod.mk.injEq, Except.ok.injEq] at hok
    obtain ⟨rfl, rfl⟩ := hok
    rw [computeAssessment_topics, assessed_topics_eq_keys]
    rw [mem_topicsScores_keys]
    have hkey : topicKey q = "General" := by
      rw [topicKey, htopic]
      rfl
    rw [← hkey]
    exact List.mem_map_of_mem topicKey hq
  · intro view sq hmem htopic
    have h := List.mem_map_of_mem
      (fun q : SanitizedQuestion =>
        ({ id := q.id, topic := q.topic.getD "General", question := q.question,
           options := q.options } : EndpointQuizQuestion)) hmem
    simpa [assessEndpointQuestions, htopic] using h

/-! ### Concrete witness data: the 3-question, 2-topic scenario from the spec -/

def exQ1 : Question :=
  { id := "q1", topic := some "A", question := "first question on A",
    options := [("A", "a1"), ("B", "b1"), ("C", "c1"), ("D", "d1")], correct := some "A" }

def exQ2 : Question :=
  { id := "q2", topic := some "A", question := "second question on A",
    options := [("A", "a2"), ("B", "b2"), ("C", "c2"), ("D", "d2")], correct := some "B" }

def exQ3 : Question :=
  { id := "q3", topic := some "B", question := "question on B",
    options := [("A", "a3"), ("B", "b3"), ("C", "c3"), ("D", "d3")], correct := some "C" }

def exQuiz : Quiz :=
  { title := "Sample", topics := ["A", "B"], questions := [exQ1, exQ2, exQ3],
    scored := false, scoreResult := none }

def exStore : QuizStore := [("s1", exQuiz)]

/-- Answers correct for both A questions and wrong for the B question. -/
def exAnswers : List (String × String) := [("q1", "A"), ("q2", "B"), ("q3", "D")]

def exAssessment : Assessment :=
  { session_id := "s1", title := "Sample",
    topics_assessed :=
      [{ topic := "A", score := 1, status := "proficient",
         questions_correct := 2, questions_total := 2 },
       { topic := "B", score := 0, status := "needs_review",
         questions_correct := 0, questions_total := 1 }],
    overall_knowledge := 2/3, focus_areas := ["B"], skip_areas := ["A"] }

def exQuizScored : Quiz :=
  { exQuiz with scored := true, scoreResult := some exAssessment }

def exStoreScored : QuizStore := [("s1", exQuizScored)]

/-- Evaluating the scorer on the concrete scenario. -/
theorem exScore_eval :
    score_quiz exStore "s1" (some exAnswers) = (exStoreScored, .ok exAssessment) := by
  have hget : storeGet exStore "s1" = some exQuiz := rfl
  rw [score_quiz_fresh exStore "s1" exAnswers exQuiz hget (Or.inl rfl)]
  have hres : computeAssessment "s1" exQuiz exAnswers = exAssessment := by
    simp [computeAssessment, topicsScores, bump, assessTopic, topicKey,
          answeredCorrectly, lookupStr, exQuiz, exQ1, exQ2, exQ3, exAnswers, exAssessment]
    norm_num
  rw [hres]
  rfl

/-! ### Concrete witness data: a quiz whose question has no topic field -/

def exQ4 : Question :=
  { id := "q4", topic := none, question := "untagged question",
    options := [("A", "x"), ("B", "y"), ("C", "z"), ("D", "w")], correct := some "A" }

def exQuizNT : Quiz :=
  { title := "NT", topics := [], questions := [exQ4], scored := false, scoreResult := none }

def exStoreNT : QuizStore := [("s2", exQuizNT)]

def exAssessmentNT : Assessment :=
  { session_id := "s2", title := "NT",
    topics_assessed :=
      [{ topic := "General", score := 0, status := "needs_review",
         questions_correct := 0, questions_total := 1 }],
    overall_knowledge := 0, focus_areas := ["General"], skip_areas := [] }

theorem exScoreNT_eval :
    score_quiz exStoreNT "s2" (some []) =
      ([("s2", { exQuizNT with scored := true, scoreResult := some exAssessmentNT })],
       .ok exAssessmentNT) := by
  have hget : storeGet exStoreNT "s2" = some exQuizNT := rfl
  rw [score_quiz_fresh exStoreNT "s2" [] exQuizNT hget (Or.inl rfl)]
  have hres : computeAssessment "s2" exQuizNT [] = exAssessmentNT := by
    simp [computeAssessment, topicsScores, bump, assessTopic, topicKey,
          answeredCorrectly, lookupStr, exQuizNT, exQ4, exAssessmentNT]
  rw [hres]
  rfl

/-- A sanitized view holding the untagged question, as `generate_quiz`
would return it. -/
def exViewNT : QuizView :=
  { session_id := "s2", title := "NT", topics := [],
    questions :=
      [{ id := "q4", topic := none, question := "untagged question",
         options := [("A", "x"), ("B", "y"), ("C", "z"), ("D", "w")] }] }

/-! ### Witnesses -/

/-- C1 witness: on the scored concrete store, a call with different
answers and a call with an undecodable answers payload both return the
cached assessment unchanged. -/
theorem scoring_idempotent_by_identity_witness :
    score_quiz exStoreScored "s1" (some [("q1", "D"), ("q2", "D"), ("q3", "D")]) =
      (exStoreScored, .ok exAssessment) ∧
    score_quiz exStoreScored "s1" none = (exStoreScored, .ok exAssessment) :=
  ⟨scoring_idempotent_by_identity.2 exStore exStoreScored "s1" (some exAnswers)
      (some [("q1", "D"), ("q2", "D"), ("q3", "D")]) exAssessment exScore_eval,
   scoring_idempotent_by_identity.1 exStoreScored "s1" exQuizScored exAssessment none
      rfl rfl rfl⟩

/-- C3 witness: in the concrete scenario topic A scores 1 ≥ 0.7 and is
proficient, skipped and not focused. -/
theorem proficiency_boundary_inclusive_witness :
    ({ topic := "A", score := 1, status := "proficient",
       questions_correct := 2, questions_total := 2 } : TopicAssessment).status =
        "proficient" ∧
    ({ topic := "A", score := 1, status := "proficient",
       questions_correct := 2, questions_total := 2 } : TopicAssessment).topic ∈
        exAssessment.skip_areas ∧
    ({ topic := "A", score := 1, status := "proficient",
       questions_correct := 2, questions_total := 2 } : TopicAssessment).topic ∉
        exAssessment.focus_areas := by
  have h := proficiency_boundary_inclusive exStore "s1" exQuiz exAnswers exStoreScored
    exAssessment
    { topic := "A", score := 1, status := "proficient",
      questions_correct := 2, questions_total := 2 }
    rfl (Or.inl rfl) exScore_eval (by simp [exAssessment])
  exact h.1 (by norm_num)

/-- C4 witness: the concrete assessment lists topics A then B in
first-seen order and its totals sum to the 3 questions. -/
theorem assessment_covers_witness :
    exAssessment.topics_assessed.map (·.topic) = firstSeen (exQuiz.questions.map topicKey) ∧
    (exAssessment.topics_assessed.map (·.questions_total)).sum = exQuiz.questions.length := by
  have h := assessment_covers_all_questions_and_topics exStore "s1" exQuiz exAnswers
    exStoreScored exAssessment rfl (Or.inl rfl) exScore_eval
  exact ⟨h.1, h.2.1⟩

/-- C6 witness: the unanswered first question is tallied incorrect, and
scoring the stored session with an empty answers mapping still returns a
result. -/
theorem missing_answer_witness :
    (answeredCorrectly [("q2", "A")] exQ1 = false ∧
     topicsScores [exQ1] [("q2", "A")] = [(topicKey exQ1, 0, 1)]) ∧
    (∃ a : Assessment, (score_quiz exStore "s1" (some [])).2 = .ok a) :=
  ⟨missing_answer_incorrect_never_error.1 [("q2", "A")] exQ1 "A" rfl (by decide),
   missing_answer_incorrect_never_error.2 exStore "s1" exQuiz [] rfl⟩

/-- C7 witness: the concrete overall knowledge is 2 correct out of 3. -/
theorem overall_knowledge_witness :
    exAssessment.overall_knowledge =
      (exQuiz.questions.countP (answeredCorrectly exAnswers) : ℚ) /
        (exQuiz.questions.length : ℚ) := by
  have h := overall_knowledge_ratio exStore "s1" exQuiz exAnswers exStoreScored exAssessment
    rfl (Or.inl rfl) exScore_eval
  exact h.1

/-- C9 witness: a failed call on the empty store changes nothing, and a
concrete attempt sequence keeps the consistent store consistent. -/
theorem store_consistent_witness :
    (score_quiz [] "x" none).1 = [] ∧
    StoreConsistent
      (runAttempts exStore [("s1", some exAnswers), ("s1", none), ("zz", some [])]) := by
  constructor
  · exact failed_scoring_keeps_store_consistent.1 [] "x" none (.sessionNotFound "x") rfl
  · refine failed_scoring_keeps_store_consistent.2 exStore _ ?_
    intro p hp
    simp only [exStore, List.mem_singleton] at hp
    subst hp
    intro hscored
    exact absurd hscored (by simp [exQuiz])

/-- C10 witness: the untagged question lands under `General` in the
concrete no-topic scenario, and the endpoint view reports `General`. -/
theorem missing_topic_witness :
    "General" ∈ exAssessmentNT.topics_assessed.map (·.topic) ∧
    ({ id := "q4", topic := "General", question := "untagged question",
       options := [("A", "x"), ("B", "y"), ("C", "z"), ("D", "w")] } :
        EndpointQuizQuestion) ∈ assessEndpointQuestions exViewNT := by
  constructor
  · exact missing_topic_defaults_to_general.1 exStoreNT "s2" exQuizNT exQ4 []
      [("s2", { exQuizNT with scored := true, scoreResult := some exAssessmentNT })]
      exAssessmentNT rfl (Or.inl rfl) exScoreNT_eval (by simp [exQuizNT]) rfl
  · exact missing_topic_defaults_to_general.2 exViewNT
      { id := "q4", topic := none, question := "untagged question",
        options := [("A", "x"), ("B", "y"), ("C", "z"), ("D", "w")] }
      (by simp [exViewNT]) rfl

end SkillScape
